import Mathlib

/-!
Verification of the libelf ELF64 decoder against its specification.

The Rust sources are shallowly embedded: byte buffers are `List Nat`
(each element a byte value), machine integers are `Nat` with explicit
`% 2 ^ w` where wrap-around matters, signed 64-bit values are `Int`
obtained through `toSigned64`, and fallible operations return `Option`
or an outcome type.  Rust panics (failed slice indexing, `assert!`,
`unwrap()`) are modelled by an explicit `panicked` / `none` outcome;
an out-of-bounds pointer read (undefined behavior) is modelled by the
dedicated `oobRead` outcome.  Record views (`repr(C)` struct overlays
on a little-endian host) are modelled by field-by-field little-endian
reads at the struct field offsets.
-/

/-- Little-endian read of `n` bytes of `data` starting at offset `off`.
Positions past the end of the list read as 0; every use below is guarded
by the bounds established in the surrounding definition or theorem. -/
def readLE (data : List Nat) (off : Nat) : Nat → Nat
  | 0 => 0
  | n + 1 => data.getD off 0 + 256 * readLE data (off + 1) n

/-- Two-complement reinterpretation of a 64-bit unsigned value as `i64`
(`isize` on the 64-bit targets this crate supports); the numerals are
`2 ^ 63` and `2 ^ 64`. -/
def toSigned64 (n : Nat) : Int :=
  if n < 9223372036854775808 then (n : Int) else (n : Int) - 18446744073709551616

/-- UTF-8 validity of a byte sequence, as checked by `core::str::from_utf8`:
well-formed 1- to 4-byte sequences, no overlong encodings, no surrogate
code points, nothing above U+10FFFF. -/
def validUtf8 : List Nat → Bool
  | [] => true
  | b :: rest =>
    if b < 0x80 then validUtf8 rest
    else if b < 0xC2 then false
    else if b < 0xE0 then
      match rest with
      | b2 :: rest2 => decide (0x80 ≤ b2 ∧ b2 < 0xC0) && validUtf8 rest2
      | [] => false
    else if b < 0xF0 then
      match rest with
      | b2 :: b3 :: rest2 =>
        (if b = 0xE0 then decide (0xA0 ≤ b2 ∧ b2 < 0xC0)
         else if b = 0xED then decide (0x80 ≤ b2 ∧ b2 < 0xA0)
         else decide (0x80 ≤ b2 ∧ b2 < 0xC0)) &&
        decide (0x80 ≤ b3 ∧ b3 < 0xC0) && validUtf8 rest2
      | _ => false
    else if b < 0xF5 then
      match rest with
      | b2 :: b3 :: b4 :: rest2 =>
        (if b = 0xF0 then decide (0x90 ≤ b2 ∧ b2 < 0xC0)
         else if b = 0xF4 then decide (0x80 ≤ b2 ∧ b2 < 0x90)
         else decide (0x80 ≤ b2 ∧ b2 < 0xC0)) &&
        decide (0x80 ≤ b3 ∧ b3 < 0xC0) && decide (0x80 ≤ b4 ∧ b4 < 0xC0) &&
        validUtf8 rest2
      | _ => false
    else false

/-- Outcome of an operation that can return a value, return an explicit
absence (Rust `None`), or panic. -/
inductive PRes (α : Type) where
  | ok (val : α)
  | absent
  | panicked
deriving DecidableEq

/-- Outcome of `StringTable::get_slice`: a value, absence, or an
out-of-bounds read performed by the unbounded `strlen` scan (undefined
behavior in the source). -/
inductive SliceResult where
  | ok (bytes : List Nat)
  | absent
  | oobRead
deriving DecidableEq

/-- Embeds `StringTable::get_slice` (src/lib.rs:101-110).  The source
computes `strlen` on a raw pointer to `table[index..]`: the scan stops at
the first NUL byte, and when the suffix holds no NUL it keeps reading past
the end of the table (modelled as `oobRead`). -/
def StringTable.get_slice (table : List Nat) (index : Nat) : SliceResult :=
  if index ≥ table.length then .absent
  else
    let buf := table.drop index
    if buf.contains 0 then .ok (buf.takeWhile (fun b => b != 0))
    else .oobRead

/-- Embeds `StringTable::get_string` (src/lib.rs:113-124).  The scan
`while buf[len] != 0` panics (index out of bounds) when the suffix holds
no NUL, and `core::str::from_utf8(..).unwrap()` panics when the bytes are
not valid UTF-8. -/
def StringTable.get_string (table : List Nat) (index : Nat) : PRes (List Nat) :=
  if index < table.length then
    let buf := table.drop index
    if buf.contains 0 then
      let s := buf.takeWhile (fun b => b != 0)
      if validUtf8 s then .ok s else .panicked
    else .panicked
  else .absent

/-- Embeds the (exported but never constructed) `StrtabResult` enum
(src/lib.rs:90-94): the three-way outcome the spec requires of the
validated-text lookup. -/
inductive StrtabResult where
  | Ok (s : List Nat)
  | Invalid (bytes : List Nat)
  | OutOfBounds
deriving DecidableEq

/-- Embeds `RelocKind` (src/reloc.rs:95), a `u32` newtype. -/
structure RelocKind where
  val : Nat
deriving DecidableEq

/-- Embeds `RelocInfo` (src/reloc.rs:35), a `u64` newtype. -/
structure RelocInfo where
  val : Nat
deriving DecidableEq

/-- Embeds `RelocInfo::new` (src/reloc.rs:39): `((symbol as u64) << 32) | kind`. -/
def RelocInfo.new (symbol : Nat) (kind : RelocKind) : RelocInfo :=
  ⟨((symbol <<< 32) ||| kind.val) % 2 ^ 64⟩

/-- Embeds `RelocInfo::symbol` (src/reloc.rs:44): `(self.0 >> 32) as u32`. -/
def RelocInfo.symbol (r : RelocInfo) : Nat :=
  (r.val >>> 32) % 2 ^ 32

/-- Embeds `RelocInfo::kind` (src/reloc.rs:49): `RelocKind(self.0 as u32)`. -/
def RelocInfo.kind (r : RelocInfo) : RelocKind :=
  ⟨r.val % 2 ^ 32⟩

/-- Embeds `SymInfo` (src/symbol.rs:183): the packed info/other byte pair. -/
structure SymInfo where
  info : Nat
  other : Nat
deriving DecidableEq

/-- Embeds `Sym` (src/symbol.rs:104), one 24-byte symbol record; named
`ElfSym` here because Mathlib already declares `Sym`. -/
structure ElfSym where
  name_index : Nat
  info : SymInfo
  section_index : Nat
  value : Nat
  size : Nat
deriving DecidableEq

/-- Embeds `Sym::contains_addr` (src/symbol.rs:176-178):
`self.value <= addr && addr < (self.value + self.size)`, the `u64`
addition wrapping modulo `2 ^ 64` (the numeral below) as in the
release-mode source. -/
def ElfSym.contains_addr (s : ElfSym) (addr : Nat) : Bool :=
  decide (s.value ≤ addr) &&
    decide (addr < (s.value + s.size) % 18446744073709551616)

/-- Embeds `SymbolKind` (src/symbol.rs:204-224). -/
inductive SymbolKind where
  | NoType
  | Object
  | Func
  | Section
  | File
  | Common
  | Tls
  | Ifunc
  | EnvSpecific (raw : Nat)
  | CpuSpecific (raw : Nat)
  | Unknown (raw : Nat)
deriving DecidableEq

/-- Embeds `SymbolKind::from_sym_info` (src/symbol.rs:227-241): matches on
`si.info & 0xf` with the source arm order, where the arm `10 => Ifunc`
precedes the range arm `10..=12 => EnvSpecific`. -/
def SymbolKind.from_sym_info (si : SymInfo) : SymbolKind :=
  let x := si.info &&& 0xf
  if x = 0 then .NoType
  else if x = 1 then .Object
  else if x = 2 then .Func
  else if x = 3 then .Section
  else if x = 4 then .File
  else if x = 5 then .Common
  else if x = 6 then .Tls
  else if x = 10 then .Ifunc
  else if 10 ≤ x ∧ x ≤ 12 then .EnvSpecific x
  else if 13 ≤ x ∧ x ≤ 15 then .CpuSpecific x
  else .Unknown x

/-- Embeds `SectionType` (src/section.rs:174-196). -/
inductive SectionType where
  | Null
  | Progbits
  | Symtab
  | Strtab
  | Rela
  | Hash
  | Dynamic
  | Note
  | Nobits
  | Rel
  | Shlib
  | Dynsym
  | InitArray
  | FiniArray
  | PreinitArray
  | Group
  | SymtabShndx
  | EnvSpecific (raw : Nat)
  | CpuSpecific (raw : Nat)
  | UserSpecific (raw : Nat)
  | Unknown (raw : Nat)
deriving DecidableEq

/-- Embeds `SectionType::from_u32` (src/section.rs:203-227) with the
source arm order. -/
def SectionType.from_u32 (x : Nat) : SectionType :=
  if x = 0 then .Null
  else if x = 1 then .Progbits
  else if x = 2 then .Symtab
  else if x = 3 then .Strtab
  else if x = 4 then .Rela
  else if x = 5 then .Hash
  else if x = 6 then .Dynamic
  else if x = 7 then .Note
  else if x = 8 then .Nobits
  else if x = 9 then .Rel
  else if x = 10 then .Shlib
  else if x = 11 then .Dynsym
  else if x = 14 then .InitArray
  else if x = 15 then .FiniArray
  else if x = 16 then .PreinitArray
  else if x = 17 then .Group
  else if x = 18 then .SymtabShndx
  else if 0x60000000 ≤ x ∧ x ≤ 0x6fffffff then .EnvSpecific x
  else if 0x70000000 ≤ x ∧ x ≤ 0x7fffffff then .CpuSpecific x
  else if 0x80000000 ≤ x ∧ x ≤ 0xffffffff then .UserSpecific x
  else .Unknown x

/-- Embeds `Dyn` (src/dynamic.rs:64): signed tag plus value. -/
structure Dyn where
  tag : Int
  value : Nat
deriving DecidableEq

/-- Decodes one 16-byte `Dyn` record overlay at offset `off`. -/
def Dyn.decode (data : List Nat) (off : Nat) : Dyn :=
  ⟨toSigned64 (readLE data off 8), readLE data (off + 8) 8⟩

/-- The reinterpretation step of `DynamicTable::new` (src/dynamic.rs:41-43):
`data.len() / size_of::<Dyn>()` records overlaid on the segment bytes. -/
def dynEntries (data : List Nat) : List Dyn :=
  (List.range (data.length / 16)).map (fun i => Dyn.decode data (16 * i))

/-- Embeds `DynamicTable::new` (src/dynamic.rs:40-52): when the table is
non-empty, `assert_eq!(dyntab[last].tag, 0)` (a panic, modelled `none`)
and the terminator entry is dropped. -/
def DynamicTable.new (data : List Nat) : Option (List Dyn) :=
  match (dynEntries data).getLast? with
  | none => some (dynEntries data)
  | some d => if d.tag = 0 then some (dynEntries data).dropLast else none

/-- Embeds `Class` (src/types.rs:109-114), named `ElfClass` here because
Mathlib already declares `Class`. -/
inductive ElfClass where
  | None
  | Bits32
  | Bits64
  | Unknown (raw : Nat)
deriving DecidableEq

/-- Embeds `Class::from_u8` (src/types.rs:117-124). -/
def ElfClass.from_u8 (x : Nat) : ElfClass :=
  if x = 0 then .None
  else if x = 1 then .Bits32
  else if x = 2 then .Bits64
  else .Unknown x

/-- Embeds `Class::to_u8` (src/types.rs:126-133). -/
def ElfClass.to_u8 : ElfClass → Nat
  | .None => 0
  | .Bits32 => 1
  | .Bits64 => 2
  | .Unknown x => x

/-- The four construction failures of `Elf::new` (src/lib.rs:133-152).  The
constructors correspond, in order, to the source error strings
invalid ELF / not ELF64 / bad program header size / bad section header
size. -/
inductive ElfError where
  | invalidElf
  | notElf64
  | badPhdrSize
  | badShdrSize
deriving DecidableEq

/-- Field reads of the `FileHeader` overlay (src/lib.rs:291-315): the
`repr(C)` struct is overlaid on the buffer start, so each accessor is a
little-endian read at that field's byte offset.  `class` is a Lean
keyword, hence `classField`. -/
def FileHeader.classField (data : List Nat) : Nat := data.getD 4 0

/-- The `phdr_offset` field (byte offset 32, 8 bytes). -/
def FileHeader.phdr_offset (data : List Nat) : Nat := readLE data 32 8

/-- The `shdr_offset` field (byte offset 40, 8 bytes). -/
def FileHeader.shdr_offset (data : List Nat) : Nat := readLE data 40 8

/-- The `phdr_size` field (byte offset 54, 2 bytes). -/
def FileHeader.phdr_size (data : List Nat) : Nat := readLE data 54 2

/-- The `phdr_num` field (byte offset 56, 2 bytes). -/
def FileHeader.phdr_num (data : List Nat) : Nat := readLE data 56 2

/-- The `shdr_size` field (byte offset 58, 2 bytes). -/
def FileHeader.shdr_size (data : List Nat) : Nat := readLE data 58 2

/-- The `shdr_num` field (byte offset 60, 2 bytes). -/
def FileHeader.shdr_num (data : List Nat) : Nat := readLE data 60 2

/-- The `shdr_strtab_index` field (byte offset 62, 2 bytes). -/
def FileHeader.shdr_strtab_index (data : List Nat) : Nat := readLE data 62 2

/-- Embeds `FileHeader::check_buffer` (src/lib.rs:368-375): pointer
alignment (a property of the caller-supplied pointer, passed in as the
`aligned` flag), buffer length at least 64, and the four magic bytes,
checked left to right with short-circuiting. -/
def FileHeader.check_buffer (aligned : Bool) (data : List Nat) : Bool :=
  aligned && decide (64 ≤ data.length) && (data.getD 0 0 == 0x7f) &&
    (data.getD 1 0 == 0x45) && (data.getD 2 0 == 0x4c) && (data.getD 3 0 == 0x46)

/-- Embeds `Elf` (src/lib.rs:127-130); the `ehdr` reference is the buffer
overlay, so only the buffer is carried. -/
structure Elf where
  data : List Nat
deriving DecidableEq

/-- Embeds `Elf::new` (src/lib.rs:133-152): check the buffer, then the
class, then the program-header stride (56), then the section-header
stride (64); first failure wins. -/
def Elf.new (aligned : Bool) (data : List Nat) : Except ElfError Elf :=
  if !FileHeader.check_buffer aligned data then .error .invalidElf
  else if FileHeader.classField data ≠ ElfClass.to_u8 ElfClass.Bits64 then
    .error .notElf64
  else if FileHeader.phdr_size data ≠ 56 then .error .badPhdrSize
  else if FileHeader.shdr_size data ≠ 64 then .error .badShdrSize
  else .ok ⟨data⟩

/-- Models the double slice `&data[offset..][..size]` (as in
`Elf::get_slice`, src/lib.rs:154-156, and the table constructions):
`none` is the slice-bounds panic of either indexing step. -/
def getSliceP (data : List Nat) (offset size : Nat) : Option (List Nat) :=
  if offset ≤ data.length then
    if size ≤ data.length - offset then some ((data.drop offset).take size)
    else none
  else none

/-- Embeds `ProgramHeader` (src/segment.rs:84-93), one 56-byte record. -/
structure ProgramHeader where
  kind : Nat
  flags : Nat
  file_offset : Nat
  vaddr : Nat
  paddr : Nat
  file_size : Nat
  mem_size : Nat
  alignment : Nat
deriving DecidableEq

/-- Decodes one 56-byte `ProgramHeader` overlay at offset `off`. -/
def ProgramHeader.decode (data : List Nat) (off : Nat) : ProgramHeader :=
  ⟨readLE data off 4, readLE data (off + 4) 4, readLE data (off + 8) 8,
    readLE data (off + 16) 8, readLE data (off + 24) 8, readLE data (off + 32) 8,
    readLE data (off + 40) 8, readLE data (off + 48) 8⟩

/-- Embeds `SectionHeader` (src/section.rs:104-115), one 64-byte record. -/
structure SectionHeader where
  name_index : Nat
  section_type : Nat
  flags : Nat
  addr : Nat
  offset : Nat
  size : Nat
  link : Nat
  info : Nat
  addr_align : Nat
  entry_size : Nat
deriving DecidableEq

/-- Decodes one 64-byte `SectionHeader` overlay at offset `off`. -/
def SectionHeader.decode (data : List Nat) (off : Nat) : SectionHeader :=
  ⟨readLE data off 4, readLE data (off + 4) 4, readLE data (off + 8) 8,
    readLE data (off + 16) 8, readLE data (off + 24) 8, readLE data (off + 32) 8,
    readLE data (off + 40) 4, readLE data (off + 44) 4, readLE data (off + 48) 8,
    readLE data (off + 56) 8⟩

/-- Embeds `Elf::program_headers` (src/lib.rs:226-242): the slice
`&data[phdr_offset..][..phdr_num * 56]` is taken when the iterator is
constructed (its bounds panic is the `none` outcome), and the iterator
then yields exactly `phdr_num` records from that slice. -/
def Elf.program_headers (e : Elf) : Option (List ProgramHeader) :=
  match getSliceP e.data (FileHeader.phdr_offset e.data)
      (FileHeader.phdr_num e.data * 56) with
  | some _ => some ((List.range (FileHeader.phdr_num e.data)).map
      (fun i => ProgramHeader.decode e.data (FileHeader.phdr_offset e.data + 56 * i)))
  | none => none

/-- Embeds `Elf::section_headers` (src/lib.rs:244-260), the section-header
analogue with stride 64. -/
def Elf.section_headers (e : Elf) : Option (List SectionHeader) :=
  match getSliceP e.data (FileHeader.shdr_offset e.data)
      (FileHeader.shdr_num e.data * 64) with
  | some _ => some ((List.range (FileHeader.shdr_num e.data)).map
      (fun i => SectionHeader.decode e.data (FileHeader.shdr_offset e.data + 64 * i)))
  | none => none

/-- Embeds `Elf::section_header` (src/lib.rs:214-216):
`section_headers().nth(index)`; a construction panic propagates. -/
def Elf.section_header (e : Elf) (index : Nat) : PRes SectionHeader :=
  match e.section_headers with
  | none => .panicked
  | some l =>
    match l.get? index with
    | some h => .ok h
    | none => .absent

/-- Embeds `Elf::section_string_table` (src/lib.rs:166-172): look up the
section header at `shdr_strtab_index` and slice its file range. -/
def Elf.section_string_table (e : Elf) : PRes (List Nat) :=
  match e.section_header (FileHeader.shdr_strtab_index e.data) with
  | .panicked => .panicked
  | .absent => .absent
  | .ok shdr =>
    match getSliceP e.data shdr.offset shdr.size with
    | some t => .ok t
    | none => .panicked

/-- Embeds `Section::name` (src/section.rs:74-82): resolve the
section-name string table first (absence propagates), then return `None`
for name index 0, otherwise `get_string`. -/
def Elf.section_name (e : Elf) (shdr : SectionHeader) : PRes (List Nat) :=
  match e.section_string_table with
  | .panicked => .panicked
  | .absent => .absent
  | .ok table =>
    if shdr.name_index = 0 then .absent
    else StringTable.get_string table shdr.name_index

/-- The scan of `sections().find(|s| s.name() == Some(nm))`: a panic while
resolving any candidate name aborts the whole search, a non-matching or
absent name moves on. -/
def Elf.findSectionAux (e : Elf) (nm : List Nat) : List SectionHeader → PRes SectionHeader
  | [] => .absent
  | shdr :: rest =>
    match e.section_name shdr with
    | .panicked => .panicked
    | .absent => Elf.findSectionAux e nm rest
    | .ok s => if s = nm then .ok shdr else Elf.findSectionAux e nm rest

/-- Section lookup by name over `section_headers()`, as used by
`Elf::string_table`, `Elf::symtab` and `Elf::symbol_table`. -/
def Elf.find_section_by_name (e : Elf) (nm : List Nat) : PRes SectionHeader :=
  match e.section_headers with
  | none => .panicked
  | some l => Elf.findSectionAux e nm l

/-- The bytes of the name `.strtab`. -/
def strtab_name : List Nat := [46, 115, 116, 114, 116, 97, 98]

/-- The bytes of the name `.symtab`. -/
def symtab_name : List Nat := [46, 115, 121, 109, 116, 97, 98]

/-- Embeds `Elf::string_table` (src/lib.rs:174-182): find the section
named `.strtab` and slice its file range. -/
def Elf.string_table (e : Elf) : PRes (List Nat) :=
  match e.find_section_by_name strtab_name with
  | .panicked => .panicked
  | .absent => .absent
  | .ok shdr =>
    match getSliceP e.data shdr.offset shdr.size with
    | some t => .ok t
    | none => .panicked

/-- Embeds `Symbol::name` (src/symbol.rs:71-73):
`self.elf.string_table()?.get_string(self.name_index())` with no special
case for index 0. -/
def Elf.symbol_name (e : Elf) (s : ElfSym) : PRes (List Nat) :=
  match e.string_table with
  | .panicked => .panicked
  | .absent => .absent
  | .ok table => StringTable.get_string table s.name_index

/-- Decodes one 24-byte `Sym` overlay at offset `off`. -/
def ElfSym.decode (data : List Nat) (off : Nat) : ElfSym :=
  ⟨readLE data off 4, ⟨data.getD (off + 4) 0, data.getD (off + 5) 0⟩,
    readLE data (off + 6) 2, readLE data (off + 8) 8, readLE data (off + 16) 8⟩

/-- Embeds `Elf::symtab` (src/lib.rs:184-200): find the section named
`.symtab`, `assert!` its entry size is 24 (panic otherwise), point at
`data[file_offset..]` (panic when the offset is past the end) and yield
`size / 24` records from there. -/
def Elf.symtab (e : Elf) : PRes (List ElfSym) :=
  match e.find_section_by_name symtab_name with
  | .panicked => .panicked
  | .absent => .absent
  | .ok shdr =>
    if shdr.entry_size ≠ 24 then .panicked
    else if shdr.offset ≤ e.data.length then
      .ok ((List.range (shdr.size / 24)).map
        (fun i => ElfSym.decode e.data (shdr.offset + 24 * i)))
    else .panicked

/-- Embeds `Elf::symbol_table` (src/lib.rs:202-212): find the section
named `.strtab` (sic), reinterpret its sliced file range as `Sym`
records, and evaluate `string_table()` for the stored argument (its panic
propagates). -/
def Elf.symbol_table (e : Elf) : PRes (List ElfSym) :=
  match e.find_section_by_name strtab_name with
  | .panicked => .panicked
  | .absent => .absent
  | .ok shdr =>
    match getSliceP e.data shdr.offset shdr.size with
    | none => .panicked
    | some _ =>
      match e.string_table with
      | .panicked => .panicked
      | _ => .ok ((List.range (shdr.size / 24)).map
          (fun i => ElfSym.decode e.data (shdr.offset + 24 * i)))

/-- Decidable equality for construction results. -/
instance : DecidableEq (Except ElfError Elf) := fun a b =>
  match a, b with
  | .ok x, .ok y => if h : x = y then isTrue (by rw [h]) else isFalse (by simp [h])
  | .error x, .error y =>
    if h : x = y then isTrue (by rw [h]) else isFalse (by simp [h])
  | .ok _, .error _ => isFalse (by simp)
  | .error _, .ok _ => isFalse (by simp)

/-- A 64-byte buffer holding only a valid file header: magic, class 2,
strides 56/64, and phdr and shdr tables both declared at offset 64 with
one entry each, past the end of the buffer. -/
def c1Buf : List Nat :=
  [127, 69, 76, 70, 2, 1, 1] ++ List.replicate 9 0 ++
    [2, 0, 62, 0, 1] ++ List.replicate 11 0 ++
    [64] ++ List.replicate 7 0 ++ [64] ++ List.replicate 11 0 ++
    [64, 0, 56, 0, 1, 0, 64, 0, 1, 0, 0, 0]

/-- A 64-byte buffer holding a fully valid file header declaring empty
header tables. -/
def c9Buf : List Nat :=
  [127, 69, 76, 70, 2, 1, 1] ++ List.replicate 9 0 ++
    [2, 0, 62, 0, 1] ++ List.replicate 31 0 ++
    [64, 0, 56, 0, 0, 0, 64] ++ List.replicate 5 0

/-- A minimal valid ELF with no sections at all (hence no `.strtab` or
`.symtab` section). -/
def minBuf : List Nat :=
  [127, 69, 76, 70, 2, 1, 1] ++ List.replicate 9 0 ++
    [2, 0, 62, 0, 1] ++ List.replicate 31 0 ++
    [64, 0, 56, 0, 0, 0, 64] ++ List.replicate 5 0

/-- A 202-byte ELF image with two sections: section 0 is named `.strtab`
(its 1-byte content, a lone NUL, at offset 201) and section 1 is the
section-name string table (9 bytes at offset 192).  The section headers
sit at offset 64. -/
def c6Buf : List Nat :=
  [127, 69, 76, 70, 2, 1, 1] ++ List.replicate 9 0 ++
    [2, 0, 62, 0, 1] ++ List.replicate 19 0 ++
    [64] ++ List.replicate 11 0 ++
    [64, 0, 56, 0, 0, 0, 64, 0, 2, 0, 1, 0, 1, 0, 0, 0, 3] ++
    List.replicate 19 0 ++ [201] ++ List.replicate 7 0 ++
    [1] ++ List.replicate 35 0 ++ [3] ++ List.replicate 19 0 ++
    [192] ++ List.replicate 7 0 ++ [9] ++ List.replicate 32 0 ++
    [46, 115, 116, 114, 116, 97, 98, 0, 0]

/-- A 321-byte ELF image with three sections: section 0 is named `.symtab`
(24 bytes at offset 273 decoding as one `Sym` record with value `0x11`),
section 1 is named `.strtab` (24 bytes at offset 297 decoding as a
different `Sym` record with value `0x33`), and section 2 is the
section-name string table (17 bytes at offset 256). -/
def c10Buf : List Nat :=
  [127, 69, 76, 70, 2, 1, 1] ++ List.replicate 9 0 ++
    [2, 0, 62, 0, 1] ++ List.replicate 19 0 ++
    [64] ++ List.replicate 11 0 ++
    [64, 0, 56, 0, 0, 0, 64, 0, 3, 0, 2, 0, 1, 0, 0, 0, 2] ++
    List.replicate 19 0 ++ [17, 1] ++ List.replicate 6 0 ++
    [24] ++ List.replicate 23 0 ++ [24] ++ List.replicate 7 0 ++
    [9, 0, 0, 0, 3] ++ List.replicate 19 0 ++
    [41, 1] ++ List.replicate 6 0 ++ [24] ++ List.replicate 35 0 ++
    [3] ++ List.replicate 20 0 ++ [1] ++ List.replicate 6 0 ++
    [17] ++ List.replicate 32 0 ++
    [46, 115, 121, 109, 116, 97, 98, 0, 46, 115, 116, 114, 116, 97, 98, 0,
      7, 0, 0, 0, 1, 0, 0, 0, 17] ++ List.replicate 7 0 ++
    [34] ++ List.replicate 7 0 ++
    [9, 0, 0, 0, 2, 0, 0, 0, 51] ++ List.replicate 7 0 ++
    [68] ++ List.replicate 7 0

/-- C2: the raw-bytes lookup as the claim states it fails on the code.  For
the one-byte table `[0x41]` (no NUL anywhere) and in-bounds index 0, the
`strlen` scan of `get_slice` runs past the end of the table (out-of-bounds
read) instead of stopping at the table end with `[0x41]`; with a NUL
present the lookup does return the bytes before it. -/
theorem claim_C2 :
    StringTable.get_slice [0x41] 0 = SliceResult.oobRead ∧
    StringTable.get_slice [0x41, 0] 0 = SliceResult.ok [0x41] ∧
    StringTable.get_slice [0x41, 0] 2 = SliceResult.absent := by
  decide

/-- C3: the validated-text lookup as the claim states it fails on the code.
For the table `[0xFF, 0x00]` and in-bounds index 0 the bytes before the
terminator are not valid UTF-8 and `get_string` panics through
`from_utf8(..).unwrap()` instead of returning a distinguishable
invalid-text outcome; valid text and out-of-bounds behave as described. -/
theorem claim_C3 :
    StringTable.get_string [0xFF, 0] 0 = PRes.panicked ∧
    StringTable.get_string [0x41, 0] 0 = PRes.ok [0x41] ∧
    StringTable.get_string [0xFF, 0] 5 = PRes.absent := by
  decide

/-- C4: relocation info packing round-trips.  For all 32-bit symbol
indices and kind codes, `RelocInfo::new(s, k).symbol() = s` and
`RelocInfo::new(s, k).kind() = k`, and the packed word is
`s * 2 ^ 32 + k` (symbol in the high 32 bits, kind in the low 32 bits). -/
theorem claim_C4 (s k : Nat) (hs : s < 2 ^ 32) (hk : k < 2 ^ 32) :
    RelocInfo.symbol (RelocInfo.new s ⟨k⟩) = s ∧
    RelocInfo.kind (RelocInfo.new s ⟨k⟩) = ⟨k⟩ ∧
    (RelocInfo.new s ⟨k⟩).val = s * 2 ^ 32 + k := by
  have hor : (s <<< 32) ||| k = 2 ^ 32 * s + k := by
    rw [Nat.shiftLeft_eq, Nat.mul_comm]
    exact (Nat.mul_add_lt_is_or hk s).symm
  have p32 : (2 : Nat) ^ 32 = 4294967296 := by norm_num
  have p64 : (2 : Nat) ^ 64 = 18446744073709551616 := by norm_num
  simp only [RelocInfo.new, RelocInfo.symbol, RelocInfo.kind, RelocKind.mk.injEq,
    Nat.shiftRight_eq_div_pow, hor, p32, p64] at *
  refine ⟨?_, ?_, ?_⟩ <;> omega

/-- C4 witness: the round-trip at symbol index 3735928559 and kind 42. -/
theorem claim_C4_witness :
    RelocInfo.symbol (RelocInfo.new 3735928559 ⟨42⟩) = 3735928559 ∧
    RelocInfo.kind (RelocInfo.new 3735928559 ⟨42⟩) = ⟨42⟩ ∧
    (RelocInfo.new 3735928559 ⟨42⟩).val = 3735928559 * 2 ^ 32 + 42 :=
  claim_C4 3735928559 42 (by decide) (by decide)

/-- C5 counterexample: the uniform carrier policy fails on the code at two
concrete points.  `SymbolKind::from_sym_info` maps the environment-specific
value 10 to the named variant `Ifunc`, not to the environment-specific
carrier; and `SectionType::from_u32` maps `0x80000000` to a `UserSpecific`
carrier, not to `Unknown`. -/
theorem claim_C5_counterexample :
    SymbolKind.from_sym_info ⟨10, 0⟩ = SymbolKind.Ifunc ∧
    SymbolKind.Ifunc ≠ SymbolKind.EnvSpecific 10 ∧
    SectionType.from_u32 0x80000000 = SectionType.UserSpecific 0x80000000 ∧
    SectionType.UserSpecific 0x80000000 ≠ SectionType.Unknown 0x80000000 := by
  decide

/-- Helper: for a raw value of at least 19 every named arm of
`SectionType::from_u32` is skipped, leaving only the three range arms and
the catch-all. -/
theorem SectionType.from_u32_large (x : Nat) (hbig : 19 ≤ x) :
    SectionType.from_u32 x =
      if 0x60000000 ≤ x ∧ x ≤ 0x6fffffff then SectionType.EnvSpecific x
      else if 0x70000000 ≤ x ∧ x ≤ 0x7fffffff then SectionType.CpuSpecific x
      else if 0x80000000 ≤ x ∧ x ≤ 0xffffffff then SectionType.UserSpecific x
      else SectionType.Unknown x := by
  have hne : ∀ c : Nat, c < 19 → ¬ x = c := by omega
  rw [SectionType.from_u32,
    if_neg (hne 0 (by norm_num)), if_neg (hne 1 (by norm_num)),
    if_neg (hne 2 (by norm_num)), if_neg (hne 3 (by norm_num)),
    if_neg (hne 4 (by norm_num)), if_neg (hne 5 (by norm_num)),
    if_neg (hne 6 (by norm_num)), if_neg (hne 7 (by norm_num)),
    if_neg (hne 8 (by norm_num)), if_neg (hne 9 (by norm_num)),
    if_neg (hne 10 (by norm_num)), if_neg (hne 11 (by norm_num)),
    if_neg (hne 14 (by norm_num)), if_neg (hne 15 (by norm_num)),
    if_neg (hne 16 (by norm_num)), if_neg (hne 17 (by norm_num)),
    if_neg (hne 18 (by norm_num))]

/-- Helper: `SectionType::from_u32` on the environment-specific range. -/
theorem SectionType.from_u32_env_range (x : Nat) (h1 : 0x60000000 ≤ x)
    (h2 : x ≤ 0x6fffffff) : SectionType.from_u32 x = SectionType.EnvSpecific x := by
  rw [SectionType.from_u32_large x (by omega), if_pos ⟨h1, h2⟩]

/-- Helper: `SectionType::from_u32` on the processor-specific range. -/
theorem SectionType.from_u32_cpu_range (x : Nat) (h1 : 0x70000000 ≤ x)
    (h2 : x ≤ 0x7fffffff) : SectionType.from_u32 x = SectionType.CpuSpecific x := by
  rw [SectionType.from_u32_large x (by omega), if_neg (by omega),
    if_pos ⟨h1, h2⟩]

/-- Helper: `SectionType::from_u32` on the user-specific range. -/
theorem SectionType.from_u32_user_range (x : Nat) (h1 : 0x80000000 ≤ x)
    (h2 : x ≤ 0xffffffff) : SectionType.from_u32 x = SectionType.UserSpecific x := by
  rw [SectionType.from_u32_large x (by omega), if_neg (by omega),
    if_neg (by omega), if_pos ⟨h1, h2⟩]

/-- C5 as amended: decoding is total; known values map to named variants;
`SectionType` maps the whole environment-specific range to the
environment-specific carrier, the processor-specific range to its carrier,
and the user range `0x80000000..=0xffffffff` to a `UserSpecific` carrier
(all preserving the raw value), with `0x65000000` and `0x12345678` as the
claimed instances; `SymbolKind` maps 10 to the named `Ifunc` variant and
only 11 and 12 of the environment-specific range to the carrier. -/
theorem claim_C5 :
    (∀ x : Nat, 0x60000000 ≤ x → x ≤ 0x6fffffff →
      SectionType.from_u32 x = SectionType.EnvSpecific x) ∧
    (∀ x : Nat, 0x70000000 ≤ x → x ≤ 0x7fffffff →
      SectionType.from_u32 x = SectionType.CpuSpecific x) ∧
    (∀ x : Nat, 0x80000000 ≤ x → x ≤ 0xffffffff →
      SectionType.from_u32 x = SectionType.UserSpecific x) ∧
    SectionType.from_u32 0x65000000 = SectionType.EnvSpecific 0x65000000 ∧
    SectionType.from_u32 0x12345678 = SectionType.Unknown 0x12345678 ∧
    SymbolKind.from_sym_info ⟨10, 0⟩ = SymbolKind.Ifunc ∧
    SymbolKind.from_sym_info ⟨11, 0⟩ = SymbolKind.EnvSpecific 11 ∧
    SymbolKind.from_sym_info ⟨12, 0⟩ = SymbolKind.EnvSpecific 12 :=
  ⟨SectionType.from_u32_env_range, SectionType.from_u32_cpu_range,
    SectionType.from_u32_user_range, by decide, by decide, by decide,
    by decide, by decide⟩

/-- C5 witness: the environment-specific range lemma applied at
`0x65000000`. -/
theorem claim_C5_witness :
    SectionType.from_u32 0x65000000 = SectionType.EnvSpecific 0x65000000 :=
  claim_C5.1 0x65000000 (by decide) (by decide)

/-- C7: a terminated raw dynamic entry sequence is exposed without its
Null terminator, in order.  First part: whenever the final overlaid record
has tag 0, `DynamicTable::new` succeeds with exactly the preceding entries.
Second part: the byte-level instance `[(NEEDED,5), (STRTAB,0x1000),
(NULL,0)]` yields exactly those 2 entries in original order. -/
theorem claim_C7 :
    (∀ (data : List Nat) (d : Dyn), (dynEntries data).getLast? = some d →
      d.tag = 0 → DynamicTable.new data = some (dynEntries data).dropLast) ∧
    DynamicTable.new
      [1, 0, 0, 0, 0, 0, 0, 0, 5, 0, 0, 0, 0, 0, 0, 0,
       5, 0, 0, 0, 0, 0, 0, 0, 0, 0x10, 0, 0, 0, 0, 0, 0,
       0, 0, 0, 0, 0, 0, 0, 0, 0, 0, 0, 0, 0, 0, 0, 0] =
      some [⟨1, 5⟩, ⟨5, 0x1000⟩] := by
  constructor
  · intro data d hlast htag
    have hstep : DynamicTable.new data =
        if d.tag = 0 then some (dynEntries data).dropLast else none := by
      unfold DynamicTable.new
      rw [hlast]
    rw [hstep, if_pos htag]
  · decide

/-- C7 witness: the general part applied to the concrete byte sequence of
the claimed instance. -/
theorem claim_C7_witness :
    DynamicTable.new
      [1, 0, 0, 0, 0, 0, 0, 0, 5, 0, 0, 0, 0, 0, 0, 0,
       5, 0, 0, 0, 0, 0, 0, 0, 0, 0x10, 0, 0, 0, 0, 0, 0,
       0, 0, 0, 0, 0, 0, 0, 0, 0, 0, 0, 0, 0, 0, 0, 0] =
      some (dynEntries
      [1, 0, 0, 0, 0, 0, 0, 0, 5, 0, 0, 0, 0, 0, 0, 0,
       5, 0, 0, 0, 0, 0, 0, 0, 0, 0x10, 0, 0, 0, 0, 0, 0,
       0, 0, 0, 0, 0, 0, 0, 0, 0, 0, 0, 0, 0, 0, 0, 0]).dropLast :=
  claim_C7.1 _ ⟨0, 0⟩ (by decide) (by decide)

/-- C8 counterexample: the containment test fails the claim when
`value + size` wraps around 64 bits.  For value `2 ^ 64 - 1`, size 1 and
address `2 ^ 64 - 1` the claimed condition `v ≤ addr < v + s` holds, yet
`contains_addr` returns `false` because the `u64` sum wraps to 0. -/
theorem claim_C8_counterexample :
    ElfSym.contains_addr ⟨0, ⟨0, 0⟩, 0, 18446744073709551615, 1⟩
      18446744073709551615 = false ∧
    18446744073709551615 ≤ 18446744073709551615 ∧
    18446744073709551615 < 18446744073709551615 + 1 := by
  decide

/-- C8 as amended: whenever `value + size` does not wrap around 64 bits,
`contains_addr addr` is true exactly when `value ≤ addr < value + size`;
the upper bound is exclusive (value `0x1000`, size `0x10` contains
`0x1000` and `0x100F` but not `0x1010`), and a symbol of size 0 contains
no address; on wrap-around the sum is taken modulo `2 ^ 64`. -/
theorem claim_C8 :
    (∀ v s addr : Nat, v + s < 2 ^ 64 →
      (ElfSym.contains_addr ⟨0, ⟨0, 0⟩, 0, v, s⟩ addr = true ↔
        v ≤ addr ∧ addr < v + s)) ∧
    (∀ v addr : Nat, ElfSym.contains_addr ⟨0, ⟨0, 0⟩, 0, v, 0⟩ addr = false) ∧
    ElfSym.contains_addr ⟨0, ⟨0, 0⟩, 0, 0x1000, 0x10⟩ 0x1000 = true ∧
    ElfSym.contains_addr ⟨0, ⟨0, 0⟩, 0, 0x1000, 0x10⟩ 0x100F = true ∧
    ElfSym.contains_addr ⟨0, ⟨0, 0⟩, 0, 0x1000, 0x10⟩ 0x1010 = false := by
  refine ⟨?_, ?_, by decide, by decide, by decide⟩
  · intro v s addr h
    have h64 : v + s < 18446744073709551616 := by
      calc v + s < 2 ^ 64 := h
        _ = 18446744073709551616 := by norm_num
    simp only [ElfSym.contains_addr, Bool.and_eq_true, decide_eq_true_eq,
      Nat.mod_eq_of_lt h64]
  · intro v addr
    rw [show ElfSym.contains_addr ⟨0, ⟨0, 0⟩, 0, v, 0⟩ addr =
      (decide (v ≤ addr) &&
        decide (addr < (v + 0) % 18446744073709551616)) from rfl]
    rcases le_or_lt v addr with h | h
    · have h2 : ¬ addr < (v + 0) % 18446744073709551616 := by omega
      simp only [decide_eq_false h2, Bool.and_false]
    · have h2 : ¬ v ≤ addr := by omega
      simp only [decide_eq_false h2, Bool.false_and]

/-- C8 witness: the no-wrap equivalence applied at the claimed boundary
instance value `0x1000`, size `0x10`, address `0x100F`. -/
theorem claim_C8_witness :
    ElfSym.contains_addr ⟨0, ⟨0, 0⟩, 0, 0x1000, 0x10⟩ 0x100F = true ↔
      0x1000 ≤ 0x100F ∧ 0x100F < 0x1000 + 0x10 :=
  claim_C8.1 0x1000 0x10 0x100F (by norm_num)

/-- The double slice panics exactly when the requested range overruns the
buffer. -/
theorem getSliceP_none_iff (data : List Nat) (o s : Nat) :
    getSliceP data o s = none ↔ data.length < o + s := by
  constructor
  · intro h
    unfold getSliceP at h
    split_ifs at h with h1 h2 <;> omega
  · intro h
    unfold getSliceP
    split_ifs with h1 h2
    · exact absurd h (by omega)
    · rfl
    · rfl

/-- A successful `Elf::new` returns the view of the buffer it was given. -/
theorem Elf.new_ok_data (aligned : Bool) (data : List Nat) (e : Elf)
    (h : Elf.new aligned data = .ok e) : e = ⟨data⟩ := by
  unfold Elf.new at h
  split_ifs at h
  all_goals cases h
  rfl

/-- Constructing the program-header sequence fails exactly when the
declared count times the 56-byte stride overruns the buffer. -/
theorem Elf.program_headers_eq_none (e : Elf) :
    Elf.program_headers e = none ↔
      e.data.length <
        FileHeader.phdr_offset e.data + FileHeader.phdr_num e.data * 56 := by
  unfold Elf.program_headers
  rcases hs : getSliceP e.data (FileHeader.phdr_offset e.data)
      (FileHeader.phdr_num e.data * 56) with _ | t
  · exact iff_of_true rfl ((getSliceP_none_iff _ _ _).mp hs)
  · have h2 : ¬ e.data.length <
        FileHeader.phdr_offset e.data + FileHeader.phdr_num e.data * 56 := by
      intro hlt
      rw [(getSliceP_none_iff _ _ _).mpr hlt] at hs
      cases hs
    exact iff_of_false (fun hx => Option.noConfusion hx) h2

/-- A successfully constructed program-header sequence is the in-bounds
decode of exactly the declared number of records. -/
theorem Elf.program_headers_eq_some (e : Elf) (l : List ProgramHeader)
    (h : Elf.program_headers e = some l) :
    FileHeader.phdr_offset e.data + FileHeader.phdr_num e.data * 56 ≤
      e.data.length ∧
    l = (List.range (FileHeader.phdr_num e.data)).map
      (fun i => ProgramHeader.decode e.data
        (FileHeader.phdr_offset e.data + 56 * i)) := by
  unfold Elf.program_headers at h
  rcases hs : getSliceP e.data (FileHeader.phdr_offset e.data)
      (FileHeader.phdr_num e.data * 56) with _ | t
  · rw [hs] at h
    exact Option.noConfusion h
  · rw [hs] at h
    constructor
    · by_contra hc
      push_neg at hc
      rw [(getSliceP_none_iff _ _ _).mpr hc] at hs
      cases hs
    · exact (Option.some.inj h).symm

/-- Constructing the section-header sequence fails exactly when the
declared count times the 64-byte stride overruns the buffer. -/
theorem Elf.section_headers_eq_none (e : Elf) :
    Elf.section_headers e = none ↔
      e.data.length <
        FileHeader.shdr_offset e.data + FileHeader.shdr_num e.data * 64 := by
  unfold Elf.section_headers
  rcases hs : getSliceP e.data (FileHeader.shdr_offset e.data)
      (FileHeader.shdr_num e.data * 64) with _ | t
  · exact iff_of_true rfl ((getSliceP_none_iff _ _ _).mp hs)
  · have h2 : ¬ e.data.length <
        FileHeader.shdr_offset e.data + FileHeader.shdr_num e.data * 64 := by
      intro hlt
      rw [(getSliceP_none_iff _ _ _).mpr hlt] at hs
      cases hs
    exact iff_of_false (fun hx => Option.noConfusion hx) h2

/-- A successfully constructed section-header sequence is the in-bounds
decode of exactly the declared number of records. -/
theorem Elf.section_headers_eq_some (e : Elf) (l : List SectionHeader)
    (h : Elf.section_headers e = some l) :
    FileHeader.shdr_offset e.data + FileHeader.shdr_num e.data * 64 ≤
      e.data.length ∧
    l = (List.range (FileHeader.shdr_num e.data)).map
      (fun i => SectionHeader.decode e.data
        (FileHeader.shdr_offset e.data + 64 * i)) := by
  unfold Elf.section_headers at h
  rcases hs : getSliceP e.data (FileHeader.shdr_offset e.data)
      (FileHeader.shdr_num e.data * 64) with _ | t
  · rw [hs] at h
    exact Option.noConfusion h
  · rw [hs] at h
    constructor
    · by_contra hc
      push_neg at hc
      rw [(getSliceP_none_iff _ _ _).mpr hc] at hs
      cases hs
    · exact (Option.some.inj h).symm

/-- C1: for every buffer accepted by `Elf::new`, constructing either
header-table sequence fails exactly when the declared count times the
stride overruns the bytes from the declared offset to the buffer end (the
bounds check happens once, at construction), and a successfully
constructed sequence has exactly the declared number of records, every
one of whose 56 (resp. 64) bytes lies inside the buffer, so iteration
never reads out of bounds. -/
theorem claim_C1 (aligned : Bool) (data : List Nat) (e : Elf)
    (hnew : Elf.new aligned data = .ok e) :
    (Elf.program_headers e = none ↔
      data.length < FileHeader.phdr_offset data + FileHeader.phdr_num data * 56) ∧
    (∀ l, Elf.program_headers e = some l →
      FileHeader.phdr_offset data + FileHeader.phdr_num data * 56 ≤ data.length ∧
      l.length = FileHeader.phdr_num data ∧
      (∀ i j, i < FileHeader.phdr_num data → j < 56 →
        FileHeader.phdr_offset data + 56 * i + j < data.length) ∧
      l = (List.range (FileHeader.phdr_num data)).map
        (fun i => ProgramHeader.decode data (FileHeader.phdr_offset data + 56 * i))) ∧
    (Elf.section_headers e = none ↔
      data.length < FileHeader.shdr_offset data + FileHeader.shdr_num data * 64) ∧
    (∀ l, Elf.section_headers e = some l →
      FileHeader.shdr_offset data + FileHeader.shdr_num data * 64 ≤ data.length ∧
      l.length = FileHeader.shdr_num data ∧
      (∀ i j, i < FileHeader.shdr_num data → j < 64 →
        FileHeader.shdr_offset data + 64 * i + j < data.length) ∧
      l = (List.range (FileHeader.shdr_num data)).map
        (fun i => SectionHeader.decode data (FileHeader.shdr_offset data + 64 * i))) := by
  obtain rfl : e = ⟨data⟩ := Elf.new_ok_data aligned data e hnew
  refine ⟨Elf.program_headers_eq_none ⟨data⟩, ?_,
    Elf.section_headers_eq_none ⟨data⟩, ?_⟩
  · intro l hl
    obtain ⟨hle0, hmap0⟩ := Elf.program_headers_eq_some ⟨data⟩ l hl
    have hle : FileHeader.phdr_offset data + FileHeader.phdr_num data * 56 ≤
        data.length := hle0
    have hmap : l = (List.range (FileHeader.phdr_num data)).map
        (fun i => ProgramHeader.decode data
          (FileHeader.phdr_offset data + 56 * i)) := hmap0
    refine ⟨hle, ?_, ?_, hmap⟩
    · rw [hmap]
      simp
    · intro i j hi hj
      omega
  · intro l hl
    obtain ⟨hle0, hmap0⟩ := Elf.section_headers_eq_some ⟨data⟩ l hl
    have hle : FileHeader.shdr_offset data + FileHeader.shdr_num data * 64 ≤
        data.length := hle0
    have hmap : l = (List.range (FileHeader.shdr_num data)).map
        (fun i => SectionHeader.decode data
          (FileHeader.shdr_offset data + 64 * i)) := hmap0
    refine ⟨hle, ?_, ?_, hmap⟩
    · rw [hmap]
      simp
    · intro i j hi hj
      omega

/-- C1 witness: a valid header declaring one program header and one
section header at offset 64 of a 64-byte buffer; both constructions
fail. -/
theorem claim_C1_witness :
    Elf.program_headers ⟨c1Buf⟩ = none ∧ Elf.section_headers ⟨c1Buf⟩ = none := by
  have h := claim_C1 true c1Buf ⟨c1Buf⟩ (by decide)
  exact ⟨h.1.mpr (by decide), h.2.2.1.mpr (by decide)⟩

/-- C9 counterexample: the claim requires every failing check to return an
error identifying which check failed, distinguishable from the errors of
the other checks.  The empty buffer fails check (1) (too small to hold a
file header) while the all-zero 64-byte buffer passes check (1) and fails
check (2) (wrong magic), yet both constructions return the very same
error (source string invalid ELF). -/
theorem claim_C9_counterexample :
    Elf.new true [] = .error .invalidElf ∧
    Elf.new true (List.replicate 64 0) = .error .invalidElf ∧
    ([] : List Nat).length < 64 ∧
    64 ≤ (List.replicate 64 0 : List Nat).length ∧
    (List.replicate 64 0 : List Nat).getD 0 0 ≠ 0x7f := by
  decide

/-- C9 as amended: `Elf::new` validates in order — (1) buffer
size/alignment and (2) magic as one combined check whose single error
(invalid ELF) does not distinguish the two, then (3) class 64-bit, then
(4) the program-header stride 56, then (5) the section-header stride 64 —
with the class and both stride checks each returning their own distinct
error, and no partial object produced on failure. -/
theorem claim_C9 (aligned : Bool) (data : List Nat) :
    (FileHeader.check_buffer aligned data = false →
      Elf.new aligned data = .error .invalidElf) ∧
    (FileHeader.check_buffer aligned data = true →
      FileHeader.classField data ≠ 2 →
      Elf.new aligned data = .error .notElf64) ∧
    (FileHeader.check_buffer aligned data = true →
      FileHeader.classField data = 2 → FileHeader.phdr_size data ≠ 56 →
      Elf.new aligned data = .error .badPhdrSize) ∧
    (FileHeader.check_buffer aligned data = true →
      FileHeader.classField data = 2 → FileHeader.phdr_size data = 56 →
      FileHeader.shdr_size data ≠ 64 →
      Elf.new aligned data = .error .badShdrSize) ∧
    (FileHeader.check_buffer aligned data = true →
      FileHeader.classField data = 2 → FileHeader.phdr_size data = 56 →
      FileHeader.shdr_size data = 64 →
      Elf.new aligned data = .ok ⟨data⟩) ∧
    ElfError.notElf64 ≠ ElfError.badPhdrSize ∧
    ElfError.notElf64 ≠ ElfError.badShdrSize ∧
    ElfError.badPhdrSize ≠ ElfError.badShdrSize ∧
    ElfError.invalidElf ≠ ElfError.notElf64 := by
  refine ⟨?_, ?_, ?_, ?_, ?_, by decide, by decide, by decide, by decide⟩
  · intro h
    simp [Elf.new, h]
  · intro h1 h2
    simp [Elf.new, h1, ElfClass.to_u8, h2]
  · intro h1 h2 h3
    simp [Elf.new, h1, ElfClass.to_u8, h2, h3]
  · intro h1 h2 h3 h4
    simp [Elf.new, h1, ElfClass.to_u8, h2, h3, h4]
  · intro h1 h2 h3 h4
    simp [Elf.new, h1, ElfClass.to_u8, h2, h3, h4]

/-- C9 witness: the success case applied to a fully valid 64-byte
header. -/
theorem claim_C9_witness : Elf.new true c9Buf = .ok ⟨c9Buf⟩ :=
  (claim_C9 true c9Buf).2.2.2.2.1 (by decide) (by decide) (by decide) (by decide)

set_option maxRecDepth 10000 in
/-- C6 counterexample: `Symbol::name` does not return absence for name
index 0.  On a valid ELF whose `.strtab` section exists (content a single
NUL byte), the symbol with name index 0 resolves to the empty string, not
to absence. -/
theorem claim_C6_counterexample :
    Elf.new true c6Buf = .ok ⟨c6Buf⟩ ∧
    Elf.symbol_name ⟨c6Buf⟩ ⟨0, ⟨0, 0⟩, 0, 0, 0⟩ = .ok [] ∧
    (PRes.ok ([] : List Nat)) ≠ .absent := by
  decide

set_option maxRecDepth 10000 in
/-- C6 as amended: `Symbol::name` returns absence when the ELF has no
`.strtab` string table (or the index is outside the table); otherwise it
resolves the name index through the string table with no special case for
index 0, which therefore yields the (empty) string at offset 0 rather
than absence. -/
theorem claim_C6 :
    (∀ (e : Elf) (s : ElfSym), Elf.string_table e = .absent →
      Elf.symbol_name e s = .absent) ∧
    (∀ (e : Elf) (s : ElfSym) (table : List Nat),
      Elf.string_table e = .ok table →
      Elf.symbol_name e s = StringTable.get_string table s.name_index) ∧
    Elf.symbol_name ⟨c6Buf⟩ ⟨0, ⟨0, 0⟩, 0, 0, 0⟩ = .ok [] := by
  refine ⟨?_, ?_, by decide⟩
  · intro e s h
    unfold Elf.symbol_name
    rw [h]
  · intro e s table h
    unfold Elf.symbol_name
    rw [h]

/-- C6 witness: on a valid ELF with no sections the string table is
absent, and so is every symbol name. -/
theorem claim_C6_witness :
    Elf.symbol_name ⟨minBuf⟩ ⟨0, ⟨0, 0⟩, 0, 0, 0⟩ = .absent :=
  claim_C6.1 ⟨minBuf⟩ ⟨0, ⟨0, 0⟩, 0, 0, 0⟩ (by decide)

set_option maxRecDepth 20000 in
/-- C10: `Elf::symbol_table` reads its `Sym` records from the section
named `.strtab` while `Elf::symtab` reads its records from the section
named `.symtab`; on an ELF holding both sections with different record
bytes the two accessors return different records, and each returns
absence when its section is missing. -/
theorem claim_C10 :
    Elf.new true c10Buf = .ok ⟨c10Buf⟩ ∧
    Elf.symtab ⟨c10Buf⟩ = .ok [⟨7, ⟨1, 0⟩, 0, 0x11, 0x22⟩] ∧
    Elf.symbol_table ⟨c10Buf⟩ = .ok [⟨9, ⟨2, 0⟩, 0, 0x33, 0x44⟩] ∧
    (⟨7, ⟨1, 0⟩, 0, 0x11, 0x22⟩ : ElfSym) ≠ ⟨9, ⟨2, 0⟩, 0, 0x33, 0x44⟩ ∧
    Elf.symtab ⟨minBuf⟩ = .absent ∧
    Elf.symbol_table ⟨minBuf⟩ = .absent := by
  decide
